import Mathlib

/-!
Verification development for the ttyrant terminal-emulator core.

Shallow embedding of three components, translated from the Rust sources:
* `crates/ansi/src/vt.rs` — the byte-at-a-time VT escape-sequence parser
  (`VTParser::parse_byte`, `Params`);
* `ansi/src/ansi.rs` — the ANSI command interpreter
  (`AnsiParser::interpret_action`, `interpret_sgr`, the `parse_color!` macro);
* `crates/ttyrant/src/cell.rs` — the sparse screen buffer
  (`Buffer`, `Line::get`, `Line::set`, `Cell`, `Color`).

Machine integers are modelled as `Nat`/`Int`; Rust `as` casts are explicit
`% 2^w` reductions, and `i32` accumulation wraps via `wrap32`.
-/

set_option maxRecDepth 4096

/-- Two's-complement wrap of a mathematical integer into the `i32` range,
matching Rust release-mode wrapping arithmetic. -/
def wrap32 (n : Int) : Int := (n + 2 ^ 31) % 2 ^ 32 - 2 ^ 31

/-- Rust `v as u8` on an `i32` value: keep the low 8 bits. -/
def u8cast (v : Int) : Nat := (v % 256).toNat

/-- Rust `v as u16` on an `i32` value: keep the low 16 bits. -/
def u16cast (v : Int) : Nat := (v % 65536).toNat

/-! ## `crates/ansi/src/vt.rs` -/

/-- `State` from vt.rs: the eight parser states. -/
inductive State where
  | Ground
  | Escape
  | EscapeIntermediate
  | CsiEntry
  | CsiParam
  | CsiIntermediate
  | CsiIgnore
  | OscString
deriving DecidableEq, Repr

/-- `VTAction` from vt.rs: the per-byte parser output. -/
inductive VTAction where
  | Print (c : Char)
  | Execute (b : Nat)
  | Clear
  | CollectParam (b : Nat)
  | Hook (params : List Int) (intermediates : List Nat)
  | Put (b : Nat)
  | Unhook
  | OscStart
  | OscPut (b : Nat)
  | OscEnd
  | CsiDispatch (b : Nat) (params : List (Option Int))
  | EscDispatch (b : Nat)
  | None
deriving DecidableEq, Repr

/-- `Params` from vt.rs.  The source keeps a fixed 16-slot
`[MaybeUninit<Option<i32>>; 16]` together with `len`; since `as_slice`
only ever exposes the first `len` entries, `data` here is that live
prefix (so `data.length` is the source's `len`). -/
structure Params where
  data : List (Option Int)
  current : Option Int
  hasCurrent : Bool
deriving DecidableEq, Repr

/-- The fixed capacity of the `Params.data` array in vt.rs. -/
def PARAMS_CAP : Nat := 16

/-- `Params::default` from vt.rs: empty, no field under construction. -/
def Params.init : Params := ⟨[], Option.none, false⟩

/-- `Params::push_digit` from vt.rs: `current = current.unwrap_or(0) * 10 + (byte - b'0')`
in `i32` arithmetic; marks a field as under construction. -/
def Params.pushDigit (p : Params) (byte : Nat) : Params :=
  let digit : Int := (byte : Int) - 0x30
  { p with current := Option.some (wrap32 (p.current.getD 0 * 10 + digit)),
           hasCurrent := true }

/-- `Params::finish_param` from vt.rs: record the field under construction
(its value, or `none` when no digit was seen) if fewer than 16 parameters
are stored, silently dropping it otherwise; reset the accumulator. -/
def Params.finishParam (p : Params) : Params :=
  let data :=
    if p.data.length < PARAMS_CAP then
      p.data ++ [if p.hasCurrent then p.current else Option.none]
    else p.data
  ⟨data, Option.none, false⟩

/-- `Params::as_slice` from vt.rs: the finished parameters. -/
def Params.asSlice (p : Params) : List (Option Int) := p.data

/-- `VTParser` from vt.rs. -/
structure VTParser where
  state : State
  params : Params
  intermediates : List Nat
deriving DecidableEq, Repr

/-- `VTParser::default` from vt.rs: `Ground`, empty params, no intermediates. -/
def VTParser.init : VTParser := ⟨State.Ground, Params.init, []⟩

/-- `VTParser::parse_byte` from vt.rs, arm for arm.  The Rust `match` on
`(self.state, byte)` is rendered as a match on the state with an
if-chain over the byte ranges, in source order; the final `_` arm
(discard, resynchronize to `Ground`) is the trailing `else` of every
state, and the whole of the states that have no explicit arm. -/
def VTParser.parseByte (p : VTParser) (byte : Nat) : VTParser × VTAction :=
  match p.state with
  | State.Ground =>
    if byte = 0x1B then ({ p with state := State.Escape }, VTAction.None)
    else if 0x20 ≤ byte ∧ byte ≤ 0x7F then (p, VTAction.Print (Char.ofNat byte))
    else if byte ≤ 0x1F then (p, VTAction.Execute byte)
    else ({ p with state := State.Ground }, VTAction.None)
  | State.Escape =>
    if byte = 0x5B then
      ({ p with state := State.CsiEntry, params := Params.init }, VTAction.None)
    else if 0x20 ≤ byte ∧ byte ≤ 0x2F then
      ({ p with state := State.EscapeIntermediate,
                intermediates := p.intermediates ++ [byte] }, VTAction.None)
    else if 0x30 ≤ byte ∧ byte ≤ 0x7E then
      ({ p with state := State.Ground }, VTAction.EscDispatch byte)
    else ({ p with state := State.Ground }, VTAction.None)
  | State.CsiEntry =>
    if 0x30 ≤ byte ∧ byte ≤ 0x39 then
      ({ p with state := State.CsiParam, params := p.params.pushDigit byte }, VTAction.None)
    else if byte = 0x3B then
      ({ p with state := State.CsiParam, params := p.params.finishParam }, VTAction.None)
    else if 0x40 ≤ byte ∧ byte ≤ 0x7E then
      ({ p with state := State.Ground }, VTAction.CsiDispatch byte p.params.asSlice)
    else ({ p with state := State.Ground }, VTAction.None)
  | State.CsiParam =>
    if 0x30 ≤ byte ∧ byte ≤ 0x39 then
      ({ p with params := p.params.pushDigit byte }, VTAction.None)
    else if byte = 0x3B then
      ({ p with params := p.params.finishParam }, VTAction.None)
    else if 0x40 ≤ byte ∧ byte ≤ 0x7E then
      let params := p.params.finishParam
      ({ p with state := State.Ground, params := params },
       VTAction.CsiDispatch byte params.asSlice)
    else ({ p with state := State.Ground }, VTAction.None)
  | _ => ({ p with state := State.Ground }, VTAction.None)

/-- The `(state, byte)` pairs carrying an explicit arm in the
`match` of `VTParser::parse_byte`; everything else falls to the `_` arm. -/
def coveredPair : State → Nat → Bool
  | State.Ground, b => b = 0x1B || (0x20 ≤ b && b ≤ 0x7F) || b ≤ 0x1F
  | State.Escape, b => b = 0x5B || (0x20 ≤ b && b ≤ 0x2F) || (0x30 ≤ b && b ≤ 0x7E)
  | State.CsiEntry, b => (0x30 ≤ b && b ≤ 0x39) || b = 0x3B || (0x40 ≤ b && b ≤ 0x7E)
  | State.CsiParam, b => (0x30 ≤ b && b ≤ 0x39) || b = 0x3B || (0x40 ≤ b && b ≤ 0x7E)
  | _, _ => false

/-- Feed a byte list to a `VTParser`, returning the final parser state. -/
def VTParser.feed (p : VTParser) (bytes : List Nat) : VTParser :=
  bytes.foldl (fun q b => (q.parseByte b).1) p


/-! ## `ansi/src/ansi.rs` -/

/-- `Color` from ansi.rs. -/
inductive Color where
  | Default
  | Indexed (n : Nat)
  | RGB (r g b : Nat)
deriving DecidableEq, Repr

/-- `BlinkInterval` from ansi.rs. -/
inductive BlinkInterval where
  | Slow
  | Rapid
  | Static
deriving DecidableEq, Repr

/-- `Sgr` from ansi.rs. -/
inductive Sgr where
  | Reset
  | Bold
  | Faint
  | Italic
  | Underlined (b : Bool)
  | Blink (i : BlinkInterval)
  | Inverted (b : Bool)
  | Conceal (b : Bool)
  | CrossedOut (b : Bool)
  | PrimaryFont
  | AlternativeFont (n : Nat)
  | Fraktur
  | DoublyUnderlined
  | Regular
  | NeitherItalicNorBlackletter
  | ProportionalSpacing (b : Bool)
  | ForegroundColor (c : Color)
  | BackgroundColor (c : Color)
  | Framed
  | Encircled
  | Overlined (b : Bool)
  | NeitherFramedNorEncircled
  | UnderlineColor (c : Color)
deriving DecidableEq, Repr

/-- `AnsiCommand` from ansi.rs. -/
inductive AnsiCommand where
  | Print (c : Char)
  | CursorUp (n : Nat)
  | CursorDown (n : Nat)
  | CursorForward (n : Nat)
  | CursorBackward (n : Nat)
  | CursorPosition (row col : Nat)
  | EraseInDisplay (mode : Nat)
  | EraseInLine (mode : Nat)
  | Sgr (s : Option Sgr)
deriving DecidableEq, Repr

/-- The `parse_color!` macro from ansi.rs, expanded over the rest of the
flattened parameter iterator: selector `5` takes one index operand,
selector `2` takes three component operands, each narrowed by `as u8`;
any other / missing selector or missing operand gives `None`. -/
def parseColor (mk : Color → Sgr) (iter : List Int) : Option Sgr :=
  match iter with
  | sel :: rest =>
    if sel = 5 then
      match rest with
      | color :: _ => Option.some (mk (Color.Indexed (u8cast color)))
      | [] => Option.none
    else if sel = 2 then
      match rest with
      | r :: g :: b :: _ => Option.some (mk (Color.RGB (u8cast r) (u8cast g) (u8cast b)))
      | _ => Option.none
    else Option.none
  | [] => Option.none

/-- The `while let Some(code) = iter.next()` loop of
`AnsiParser::interpret_sgr` from ansi.rs.  Every recognized code
`return`s (so at most one `Sgr` comes out of a dispatch); the `_` arm
alone continues with the next code; running off the end yields `None`. -/
def sgrLoop : List Int → Option Sgr
  | [] => Option.none
  | code :: iter =>
    if code = 0 then Option.some Sgr.Reset
    else if code = 1 then Option.some Sgr.Bold
    else if code = 2 then Option.some Sgr.Faint
    else if code = 3 then Option.some Sgr.Italic
    else if code = 4 then Option.some (Sgr.Underlined true)
    else if code = 5 then Option.some (Sgr.Blink BlinkInterval.Slow)
    else if code = 6 then Option.some (Sgr.Blink BlinkInterval.Rapid)
    else if code = 7 then Option.some (Sgr.Inverted true)
    else if code = 8 then Option.some (Sgr.Conceal true)
    else if code = 9 then Option.some (Sgr.CrossedOut true)
    else if code = 10 then Option.some Sgr.PrimaryFont
    else if 11 ≤ code ∧ code ≤ 19 then Option.some (Sgr.AlternativeFont (u8cast (code - 10)))
    else if code = 20 then Option.some Sgr.Fraktur
    else if code = 21 then Option.some Sgr.DoublyUnderlined
    else if code = 22 then Option.some Sgr.Regular
    else if code = 23 then Option.some Sgr.NeitherItalicNorBlackletter
    else if code = 24 then Option.some (Sgr.Underlined false)
    else if code = 25 then Option.some (Sgr.Blink BlinkInterval.Static)
    else if code = 26 then Option.some (Sgr.ProportionalSpacing true)
    else if code = 27 then Option.some (Sgr.Inverted false)
    else if code = 28 then Option.some (Sgr.Conceal false)
    else if code = 29 then Option.some (Sgr.CrossedOut false)
    else if 30 ≤ code ∧ code ≤ 37 then
      Option.some (Sgr.ForegroundColor (Color.Indexed (u8cast (code - 30))))
    else if code = 38 then parseColor Sgr.ForegroundColor iter
    else if code = 39 then Option.some (Sgr.ForegroundColor Color.Default)
    else if 40 ≤ code ∧ code ≤ 47 then
      Option.some (Sgr.BackgroundColor (Color.Indexed (u8cast (code - 40))))
    else if code = 48 then parseColor Sgr.BackgroundColor iter
    else if code = 49 then Option.some (Sgr.BackgroundColor Color.Default)
    else if code = 50 then Option.some (Sgr.ProportionalSpacing false)
    else if code = 51 then Option.some Sgr.Framed
    else if code = 52 then Option.some Sgr.Encircled
    else if code = 53 then Option.some (Sgr.Overlined true)
    else if code = 54 then Option.some Sgr.NeitherFramedNorEncircled
    else if code = 55 then Option.some (Sgr.Overlined false)
    else if code = 58 then parseColor Sgr.UnderlineColor iter
    else if code = 59 then Option.some (Sgr.UnderlineColor Color.Default)
    else sgrLoop iter

/-- `AnsiParser::interpret_sgr` from ansi.rs: an empty parameter list is
`Reset`; otherwise the flattened parameters (`iter().flatten()`, i.e.
absent fields skipped) are scanned by `sgrLoop`. -/
def interpretSgr (params : List (Option Int)) : Option Sgr :=
  if params = [] then Option.some Sgr.Reset
  else sgrLoop (params.filterMap id)

/-- `AnsiParser::interpret_action` from ansi.rs.  `p1` is
`params.first().copied().flatten().unwrap_or(1) as u16`; the erase modes
further narrow `p1 as u8`. -/
def interpretAction (a : VTAction) : Option AnsiCommand :=
  match a with
  | VTAction.Print c => Option.some (AnsiCommand.Print c)
  | VTAction.CsiDispatch byte params =>
    let p1 : Nat := u16cast ((params.head?.join).getD 1)
    if byte = 0x41 then Option.some (AnsiCommand.CursorUp p1)
    else if byte = 0x42 then Option.some (AnsiCommand.CursorDown p1)
    else if byte = 0x43 then Option.some (AnsiCommand.CursorForward p1)
    else if byte = 0x44 then Option.some (AnsiCommand.CursorBackward p1)
    else if byte = 0x48 ∨ byte = 0x66 then
      Option.some (AnsiCommand.CursorPosition p1 (u16cast (((params.get? 1).join).getD 1)))
    else if byte = 0x4A then Option.some (AnsiCommand.EraseInDisplay (p1 % 256))
    else if byte = 0x4B then Option.some (AnsiCommand.EraseInLine (p1 % 256))
    else if byte = 0x6D then Option.some (AnsiCommand.Sgr (interpretSgr params))
    else Option.none
  | _ => Option.none

/-- `AnsiParser::parse` from ansi.rs: feed each byte to the VT parser and
interpret its action, collecting the commands passed to the callback. -/
def ansiParse (data : List Nat) : List AnsiCommand :=
  (data.foldl
    (fun (acc : VTParser × List AnsiCommand) b =>
      let pa := acc.1.parseByte b
      match interpretAction pa.2 with
      | Option.some cmd => (pa.1, acc.2 ++ [cmd])
      | Option.none => (pa.1, acc.2))
    (VTParser.init, [])).2

/-! ## `crates/ttyrant/src/cell.rs` -/

/-- `CellAttributes` from cell.rs: currently an empty struct. -/
structure CellAttributes where
deriving DecidableEq, Repr

/-- `CellAttributes::default` from cell.rs. -/
def CellAttributes.init : CellAttributes := ⟨⟩

/-- `Color` from cell.rs (named `CellColor` here to keep it apart from the
interpreter's `Color`): a packed `u32`, bit 31 the indexed flag. -/
structure CellColor where
  val : Nat
deriving DecidableEq, Repr

/-- `Color::indexed` from cell.rs: `INDEX_FLAG | index`. -/
def CellColor.indexed (index : Nat) : CellColor := ⟨Nat.lor (2 ^ 31) (index % 256)⟩

/-- `Color::rgb` from cell.rs. -/
def CellColor.rgb (r g b : Nat) : CellColor :=
  ⟨Nat.lor (Nat.lor (Nat.shiftLeft (r % 256) 16) (Nat.shiftLeft (g % 256) 8)) (b % 256)⟩

/-- `Cell` from cell.rs.  The `_padding: [u8; 3]` field is the constant
`[0, 0, 0]` in every constructed value (`new` and `default`), so it is
dropped from the model; equality on the remaining fields is the derived
`PartialEq` of the source. -/
structure Cell where
  ch : Char
  attrs : CellAttributes
  fg : CellColor
  bg : CellColor
deriving DecidableEq, Repr

/-- `Cell::default` from cell.rs: a space with default attributes and
indexed color 0 for both foreground and background. -/
def Cell.init : Cell :=
  ⟨' ', CellAttributes.init, CellColor.indexed 0, CellColor.indexed 0⟩

/-- `Cell::new` from cell.rs: the given character and attributes, the rest
from `default`. -/
def Cell.new (ch : Char) (attrs : CellAttributes) : Cell :=
  { Cell.init with ch := ch, attrs := attrs }

/-- `Cell::is_default` from cell.rs. -/
def Cell.isDefault (c : Cell) : Bool := c = Cell.init

/-- `INLINE_CELLS` from cell.rs. -/
def INLINE_CELLS : Nat := 8

/-- `Line` from cell.rs.  The source stores the inline tier as a fixed
8-slot array `[(u16, Cell); 8]` plus `inline_count`; only the first
`inline_count` slots are ever read, so `inlineCells` is that live prefix
(its length is the source's `inline_count`).  `overflow` keeps the
source's `Option<Box<Vec<_>>>` shape. -/
structure Line where
  inlineCells : List (Nat × Cell)
  overflow : Option (List (Nat × Cell))
  attributes : CellAttributes
  width : Nat
deriving DecidableEq, Repr

/-- `Line::new` from cell.rs. -/
def Line.new (width : Nat) : Line := ⟨[], Option.none, CellAttributes.init, width⟩

/-- `Line::get` from cell.rs: out-of-range column gives the default cell;
otherwise scan the occupied inline slots in order for the column, then
the overflow tier (a binary search by key on the sorted vector, which on
a sorted unique-key vector returns exactly the entry with that key,
rendered as `find?`), defaulting when absent in both. -/
def Line.get (l : Line) (x : Nat) : Cell :=
  if l.width ≤ x then Cell.init
  else
    match l.inlineCells.find? (fun e => e.1 = x) with
    | Option.some e => e.2
    | Option.none =>
      match l.overflow with
      | Option.some ov =>
        match ov.find? (fun e => e.1 = x) with
        | Option.some e => e.2
        | Option.none => Cell.init
      | Option.none => Cell.init

/-- `Line::find_insert_position` from cell.rs: index of the first occupied
inline slot whose column exceeds `x`, else `inline_count`. -/
def findInsertPosition (cells : List (Nat × Cell)) (x : Nat) : Nat :=
  match cells with
  | [] => 0
  | e :: rest => if e.1 > x then 0 else findInsertPosition rest x + 1

/-- The overflow arm of `Line::set` from cell.rs:
`binary_search_by_key` then `Ok(i) => overflow[i].1 = cell` /
`Err(i) => overflow.insert(i, (x, cell))` — update the entry with key `x`
if present, otherwise insert keeping the vector sorted by key. -/
def overflowSet (ov : List (Nat × Cell)) (x : Nat) (c : Cell) : List (Nat × Cell) :=
  match ov with
  | [] => [(x, c)]
  | e :: rest =>
    if e.1 = x then (x, c) :: rest
    else if x < e.1 then (x, c) :: e :: rest
    else e :: overflowSet rest x c

/-- `Line::set` from cell.rs, faithful to the misplaced `return`: the
`for i in 0..inline_count` loop carries its `return` inside the loop
body, *after* the `if` — so when at least one inline slot is occupied the
call returns right after examining slot 0 (overwriting or removing it on
a column match, doing nothing otherwise).  Only with an empty inline tier
does control fall through to the removal / insertion logic below the
loop, where `inline_count = 0 < INLINE_CELLS` makes the inline insertion
(`copy_within` from `find_insert_position`, here position 0 in an empty
prefix) the only reachable branch; the overflow arm is kept as the
source has it. -/
def Line.set (l : Line) (x : Nat) (cell : Cell) : Line :=
  if l.width ≤ x then l
  else
    let cellIsDefault := cell.isDefault
    match l.inlineCells with
    | e :: rest =>
      if e.1 = x then
        if cellIsDefault then { l with inlineCells := rest }
        else { l with inlineCells := (e.1, cell) :: rest }
      else l
    | [] =>
      if cellIsDefault then
        { l with overflow := l.overflow.map (fun ov => ov.eraseP (fun e => e.1 = x)) }
      else if 0 < INLINE_CELLS then
        { l with inlineCells := [(x, cell)] }
      else
        { l with overflow := Option.some (overflowSet (l.overflow.getD []) x cell) }

/-- `Buffer` from cell.rs. -/
structure Buffer where
  lines : List Line
  width : Nat
  height : Nat
deriving DecidableEq, Repr

/-- `Buffer::new` from cell.rs: `height` lines of width `width as u16`. -/
def Buffer.new (width height : Nat) : Buffer :=
  ⟨List.replicate height (Line.new (width % 65536)), width, height⟩

/-- `Buffer::write_str` from cell.rs: a no-op on an out-of-range row;
otherwise set one cell per character starting at column `x`, stopping at
the buffer width, each column narrowed by `as u16`. -/
def Buffer.writeStr (b : Buffer) (x y : Nat) (s : List Char) (attrs : CellAttributes) : Buffer :=
  if b.height ≤ y then b
  else
    { b with
      lines := b.lines.mapIdx (fun j line =>
        if j = y then
          (List.range s.length).foldl
            (fun ln i =>
              if b.width ≤ x + i then ln
              else ln.set ((x + i) % 65536) (Cell.new (s.getD i ' ') attrs))
            line
        else line) }

/-- Modelled from the spec: the Buffer-level cell lookup `get(column, row)`
of §4.3/§6 is described in the spec but absent from the sources (only
`Line::get` exists); per the spec an out-of-range row returns the default
cell, an in-range row delegates to that row's `Line::get`. -/
def Buffer.get (b : Buffer) (x y : Nat) : Cell :=
  match b.lines.get? y with
  | Option.some line => line.get x
  | Option.none => Cell.init

/-! ## Claims -/

/-- Claim C1: the spec requires `Line::set` to scan all occupied inline
slots and make a subsequent `get` return the stored cell.  The code's
misplaced `return` disproves this: on a fresh line of width 10, after
`set 0 'C'` a second `set 1 'C'` is silently lost and `get 1` yields the
default cell (contradicting the repo's own `write_string_to_cells`
test); the same failure reproduces through `Buffer::write_str` of
`"CCC"`. -/
theorem C1_set_second_write_lost :
    (((Line.new 10).set 0 (Cell.new 'C' CellAttributes.init)).set 1
        (Cell.new 'C' CellAttributes.init)).get 1 = Cell.init ∧
    Cell.new 'C' CellAttributes.init ≠ Cell.init ∧
    (((Buffer.new 10 10).writeStr 0 0 ['C', 'C', 'C'] CellAttributes.init).lines.getD 0
        (Line.new 0)).get 1 = Cell.init := by
  decide

/-- Claim C2: the spec requires one attribute-change command per recognized
SGR code, so `ESC [1;31m` should yield Bold then ForegroundColor(Indexed 1).
The code's `interpret_sgr` returns at the first recognized code, so the
byte sequence yields exactly one command, `Sgr (some Bold)`. -/
theorem C2_sgr_first_code_only :
    ansiParse [0x1B, 0x5B, 0x31, 0x3B, 0x33, 0x31, 0x6D] =
      [AnsiCommand.Sgr (Option.some Sgr.Bold)] := by
  decide

/-- Claim C3: the spec requires an explicit first parameter of `0` to clamp
to the default count 1 for CSI A/B/C/D.  The code's
`unwrap_or(1)` only covers the absent case: `ESC [0A` yields
`CursorUp 0`, while `ESC [A` yields `CursorUp 1` and `ESC [5B` yields
`CursorDown 5`. -/
theorem C3_zero_not_clamped :
    ansiParse [0x1B, 0x5B, 0x30, 0x41] = [AnsiCommand.CursorUp 0] ∧
    ansiParse [0x1B, 0x5B, 0x41] = [AnsiCommand.CursorUp 1] ∧
    ansiParse [0x1B, 0x5B, 0x35, 0x42] = [AnsiCommand.CursorDown 5] := by
  decide

/-- Claim C6: the spec requires a malformed extended-color directive to be
skipped alone, with scanning continuing at the next code.  The code
returns the `parse_color!` result unconditionally, so `ESC [38;31m`
(selector `31` is neither 5 nor 2) aborts the whole dispatch with
`Sgr none` — even though `31` on its own is a recognized code yielding
`ForegroundColor (Indexed 1)`. -/
theorem C6_malformed_color_aborts :
    ansiParse [0x1B, 0x5B, 0x33, 0x38, 0x3B, 0x33, 0x31, 0x6D] =
      [AnsiCommand.Sgr Option.none] ∧
    ansiParse [0x1B, 0x5B, 0x33, 0x31, 0x6D] =
      [AnsiCommand.Sgr (Option.some (Sgr.ForegroundColor (Color.Indexed 1)))] := by
  decide

/-- Claim C7: the spec requires a final byte in `CsiEntry` as well as
`CsiParam` to finish the field under construction before dispatching, so
`ESC [A` should dispatch with one absent parameter.  The code's
`CsiEntry` final-byte arm omits `finish_param` (its own test carries a
FIXME to that effect): `ESC [A` dispatches with an empty parameter list,
while the `CsiParam` path does finish fields, as `ESC [;C` dispatching
two absent parameters shows. -/
theorem C7_csientry_final_skips_finish :
    (((VTParser.init.parseByte 0x1B).1.parseByte 0x5B).1.parseByte 0x41).2 =
      VTAction.CsiDispatch 0x41 [] ∧
    ([] : List (Option Int)) ≠ [Option.none] ∧
    ((((VTParser.init.parseByte 0x1B).1.parseByte 0x5B).1.parseByte 0x3B).1.parseByte 0x43).2 =
      VTAction.CsiDispatch 0x43 [Option.none, Option.none] := by
  decide

/-- Claim C4: `parse_byte` is total (it is a Lean function on all states
and bytes), and any `(state, byte)` pair without an explicit arm in the
transition match is discarded: the action is `None` and the parser
resynchronizes to `Ground`, so after any malformed or unsupported byte
the machine is immediately back in `Ground`. -/
theorem C4_uncovered_byte_resyncs_to_ground (p : VTParser) (b : Nat)
    (h : coveredPair p.state b = false) :
    (p.parseByte b).1.state = State.Ground ∧ (p.parseByte b).2 = VTAction.None := by
  rcases p with ⟨st, ps, ints⟩
  cases st <;>
    simp only [coveredPair, Bool.or_eq_false_iff, decide_eq_false_iff_not,
      Bool.and_eq_false_iff, not_le, not_lt] at h <;>
    simp only [VTParser.parseByte] <;>
    first
      | (split_ifs <;> simp_all <;> omega)
      | simp_all

/-- Witness for C4 at the concrete uncovered pair (`Ground`, byte `0x80`). -/
theorem C4_uncovered_byte_resyncs_to_ground_witness :
    coveredPair VTParser.init.state 0x80 = false ∧
    ((VTParser.init.parseByte 0x80).1.state = State.Ground ∧
      (VTParser.init.parseByte 0x80).2 = VTAction.None) :=
  ⟨rfl, C4_uncovered_byte_resyncs_to_ground VTParser.init 0x80 rfl⟩

/-- One `Line::set` preserves the degenerate-sparseness invariant forced by
the misplaced `return`: at most one occupied inline slot and no overflow
vector. -/
theorem set_keeps_sparse (l : Line) (x : Nat) (c : Cell)
    (h1 : l.inlineCells.length ≤ 1) (h2 : l.overflow = Option.none) :
    (l.set x c).inlineCells.length ≤ 1 ∧ (l.set x c).overflow = Option.none := by
  rcases l with ⟨cells, ov, attrs, w⟩
  simp only at h1 h2
  subst h2
  cases cells with
  | nil =>
    simp only [Line.set]
    split_ifs <;> simp_all [INLINE_CELLS]
  | cons e rest =>
    simp only [Line.set]
    split_ifs <;> simp_all

/-- Any fold of `Line::set` operations preserves the degenerate-sparseness
invariant. -/
theorem sets_keep_sparse (ops : List (Nat × Cell)) (l : Line)
    (h1 : l.inlineCells.length ≤ 1) (h2 : l.overflow = Option.none) :
    ((ops.foldl (fun acc p => acc.set p.1 p.2) l).inlineCells.length ≤ 1 ∧
     (ops.foldl (fun acc p => acc.set p.1 p.2) l).overflow = Option.none) := by
  induction ops generalizing l with
  | nil => exact ⟨h1, h2⟩
  | cons op rest ih =>
    simp only [List.foldl_cons]
    have h := set_keeps_sparse l op.1 op.2 h1 h2
    exact ih _ h.1 h.2

/-- Claim C5: after any sequence of `Line::set` calls from a fresh line the
inline tier holds at most one entry and the overflow tier is never
populated; and once an inline slot is occupied, a `set` targeting any
other column leaves the line entirely unchanged (the loop's unconditional
`return` fires after slot 0). -/
theorem C5_inline_tier_degenerate :
    (∀ (w : Nat) (ops : List (Nat × Cell)),
      ((ops.foldl (fun acc p => acc.set p.1 p.2) (Line.new w)).inlineCells.length ≤ 1 ∧
       (ops.foldl (fun acc p => acc.set p.1 p.2) (Line.new w)).overflow = Option.none)) ∧
    (∀ (l : Line) (x : Nat) (c : Cell) (e : Nat × Cell) (rest : List (Nat × Cell)),
      l.inlineCells = e :: rest → e.1 ≠ x → l.set x c = l) := by
  constructor
  · intro w ops
    exact sets_keep_sparse ops (Line.new w) (by simp [Line.new]) rfl
  · intro l x c e rest he hne
    rcases l with ⟨cells, ov, attrs, w⟩
    simp only at he
    subst he
    simp only [Line.set]
    split_ifs <;> simp_all

/-- Witness for C5: two writes to distinct columns of a fresh line of
width 10 leave one inline entry and no overflow, and a second-column
write against an occupied slot is the identity. -/
theorem C5_inline_tier_degenerate_witness :
    ((([((0 : Nat), Cell.new 'C' CellAttributes.init),
        ((1 : Nat), Cell.new 'D' CellAttributes.init)] :
          List (Nat × Cell)).foldl (fun acc p => acc.set p.1 p.2)
            (Line.new 10)).inlineCells.length ≤ 1 ∧
      (([((0 : Nat), Cell.new 'C' CellAttributes.init),
         ((1 : Nat), Cell.new 'D' CellAttributes.init)] :
          List (Nat × Cell)).foldl (fun acc p => acc.set p.1 p.2)
            (Line.new 10)).overflow = Option.none) ∧
    ((Line.mk [(0, Cell.new 'C' CellAttributes.init)] Option.none CellAttributes.init 10).inlineCells =
        (0, Cell.new 'C' CellAttributes.init) :: [] ∧
      ((0, Cell.new 'C' CellAttributes.init) : Nat × Cell).1 ≠ 1 ∧
      (Line.mk [(0, Cell.new 'C' CellAttributes.init)] Option.none CellAttributes.init 10).set 1
          (Cell.new 'D' CellAttributes.init) =
        Line.mk [(0, Cell.new 'C' CellAttributes.init)] Option.none CellAttributes.init 10) :=
  ⟨C5_inline_tier_degenerate.1 10
      [(0, Cell.new 'C' CellAttributes.init), (1, Cell.new 'D' CellAttributes.init)],
    rfl, by decide,
    C5_inline_tier_degenerate.2 _ 1 (Cell.new 'D' CellAttributes.init)
      (0, Cell.new 'C' CellAttributes.init) [] rfl (by decide)⟩

/-- `finish_param` keeps the finished-parameter count within the 16-slot
capacity. -/
theorem finishParam_len_le (ps : Params) (h : ps.data.length ≤ PARAMS_CAP) :
    ps.finishParam.data.length ≤ PARAMS_CAP := by
  simp only [Params.finishParam]
  split_ifs <;> simp_all <;> omega

/-- One `parse_byte` step keeps the finished-parameter count within
capacity. -/
theorem parseByte_params_len (p : VTParser) (b : Nat)
    (h : p.params.data.length ≤ PARAMS_CAP) :
    ((p.parseByte b).1).params.data.length ≤ PARAMS_CAP := by
  rcases p with ⟨st, ps, ints⟩
  simp only at h
  cases st <;> simp only [VTParser.parseByte] <;>
    first
      | (split_ifs <;>
          simp_all [Params.pushDigit, Params.init] <;>
          exact finishParam_len_le ps h)
      | simp_all

/-- Feeding any byte list keeps the finished-parameter count within
capacity. -/
theorem feed_params_len (bytes : List Nat) (p : VTParser)
    (h : p.params.data.length ≤ PARAMS_CAP) :
    (p.feed bytes).params.data.length ≤ PARAMS_CAP := by
  induction bytes generalizing p with
  | nil => exact h
  | cons b rest ih =>
    have hb := parseByte_params_len p b h
    simpa [VTParser.feed] using ih _ hb

/-- Claim C8: the 16-parameter capacity is a hard ceiling.  Feeding any
bytes never leaves more than 16 finished parameters; a digit never
touches the finished parameters; finishing a field when 16 parameters
are already recorded drops the value and leaves the recorded parameters
unchanged; and concretely a CSI sequence with twenty parameters
`1;…;20` dispatches with exactly the first sixteen. -/
theorem C8_params_hard_ceiling :
    (∀ (p : VTParser) (bytes : List Nat), p.params.data.length ≤ PARAMS_CAP →
      (p.feed bytes).params.data.length ≤ PARAMS_CAP) ∧
    (∀ (ps : Params) (b : Nat), (ps.pushDigit b).data = ps.data) ∧
    (∀ ps : Params, ps.data.length = PARAMS_CAP → ps.finishParam.data = ps.data) ∧
    ((VTParser.init.feed
        [0x1B, 0x5B, 0x31, 0x3B, 0x32, 0x3B, 0x33, 0x3B, 0x34, 0x3B,
         0x35, 0x3B, 0x36, 0x3B, 0x37, 0x3B, 0x38, 0x3B, 0x39, 0x3B,
         0x31, 0x30, 0x3B, 0x31, 0x31, 0x3B, 0x31, 0x32, 0x3B, 0x31, 0x33, 0x3B,
         0x31, 0x34, 0x3B, 0x31, 0x35, 0x3B, 0x31, 0x36, 0x3B, 0x31, 0x37, 0x3B,
         0x31, 0x38, 0x3B, 0x31, 0x39, 0x3B, 0x32, 0x30, 0x3B]).parseByte 0x6D).2 =
      VTAction.CsiDispatch 0x6D
        [Option.some 1, Option.some 2, Option.some 3, Option.some 4, Option.some 5,
         Option.some 6, Option.some 7, Option.some 8, Option.some 9, Option.some 10,
         Option.some 11, Option.some 12, Option.some 13, Option.some 14, Option.some 15,
         Option.some 16] := by
  refine ⟨fun p bytes h => feed_params_len bytes p h, ?_, ?_, by decide⟩
  · intro ps b
    simp [Params.pushDigit]
  · intro ps h
    simp only [Params.finishParam]
    rw [if_neg (by omega)]

/-- Witness for C8 at concrete inputs: the initial parser, a short byte
sequence, and a full 16-slot accumulator. -/
theorem C8_params_hard_ceiling_witness :
    (VTParser.init.params.data.length ≤ PARAMS_CAP ∧
      (VTParser.init.feed [0x1B, 0x5B, 0x31, 0x3B]).params.data.length ≤ PARAMS_CAP) ∧
    ((Params.mk (List.replicate 16 Option.none) (Option.some 7) true).data.length = PARAMS_CAP ∧
      (Params.mk (List.replicate 16 Option.none) (Option.some 7) true).finishParam.data =
        (Params.mk (List.replicate 16 Option.none) (Option.some 7) true).data) :=
  ⟨⟨by decide, C8_params_hard_ceiling.1 VTParser.init [0x1B, 0x5B, 0x31, 0x3B] (by decide)⟩,
   ⟨by decide,
    C8_params_hard_ceiling.2.2.1
      (Params.mk (List.replicate 16 Option.none) (Option.some 7) true) (by decide)⟩⟩

/-- Claim C9: interpreted parameter values are cast, never range-checked:
a first parameter `v` of a cursor dispatch becomes count `v mod 2^16`, an
erase mode is further reduced `mod 2^8`, an extended-color index operand
is reduced `mod 2^8`, and `ESC [38;5;300m` yields
`ForegroundColor (Indexed 44)` (300 mod 256) instead of being rejected. -/
theorem C9_values_cast_not_checked :
    (∀ (v : Int) (rest : List (Option Int)),
      interpretAction (VTAction.CsiDispatch 0x41 (Option.some v :: rest)) =
        Option.some (AnsiCommand.CursorUp ((v % 65536).toNat))) ∧
    (∀ (v : Int) (rest : List (Option Int)),
      interpretAction (VTAction.CsiDispatch 0x4A (Option.some v :: rest)) =
        Option.some (AnsiCommand.EraseInDisplay ((v % 65536).toNat % 256))) ∧
    (∀ (idx : Int) (rest : List Int),
      sgrLoop (38 :: 5 :: idx :: rest) =
        Option.some (Sgr.ForegroundColor (Color.Indexed ((idx % 256).toNat)))) ∧
    ansiParse [0x1B, 0x5B, 0x33, 0x38, 0x3B, 0x35, 0x3B, 0x33, 0x30, 0x30, 0x6D] =
      [AnsiCommand.Sgr (Option.some (Sgr.ForegroundColor (Color.Indexed 44)))] := by
  refine ⟨?_, ?_, ?_, by decide⟩
  · intro v rest
    simp [interpretAction, u16cast]
  · intro v rest
    simp [interpretAction, u16cast]
  · intro idx rest
    norm_num [sgrLoop, parseColor, u8cast]

/-- Claim C10: cell lookup is total and never errors: an out-of-range row
or column yields the default cell, and on a freshly constructed buffer
every coordinate — in range or not — yields the default cell. -/
theorem C10_get_never_errors :
    (∀ (b : Buffer) (x y : Nat), b.lines.length ≤ y → b.get x y = Cell.init) ∧
    (∀ (l : Line) (x : Nat), l.width ≤ x → l.get x = Cell.init) ∧
    (∀ (w k x y : Nat), (Buffer.new w k).get x y = Cell.init) := by
  refine ⟨?_, ?_, ?_⟩
  · intro b x y h
    unfold Buffer.get
    rw [List.get?_eq_none.mpr h]
  · intro l x h
    simp [Line.get, h]
  · intro w k x y
    simp only [Buffer.get, Buffer.new]
    cases hy : (List.replicate k (Line.new (w % 65536))).get? y with
    | none => rfl
    | some l =>
      have hl : l = Line.new (w % 65536) := List.eq_of_mem_replicate (List.get?_mem hy)
      subst hl
      show (Line.new (w % 65536)).get x = Cell.init
      unfold Line.get
      split_ifs <;> simp [Line.new]

/-- Witness for C10 at concrete coordinates: out-of-range row, out-of-range
column, and a fresh 3-by-4 buffer probed out of range. -/
theorem C10_get_never_errors_witness :
    ((Buffer.new 10 10).lines.length ≤ 12 ∧ (Buffer.new 10 10).get 3 12 = Cell.init) ∧
    ((Line.new 10).width ≤ 42 ∧ (Line.new 10).get 42 = Cell.init) ∧
    (Buffer.new 3 4).get 99 99 = Cell.init :=
  ⟨⟨by decide, C10_get_never_errors.1 (Buffer.new 10 10) 3 12 (by decide)⟩,
   ⟨by decide, C10_get_never_errors.2.1 (Line.new 10) 42 (by decide)⟩,
   C10_get_never_errors.2.2 3 4 99 99⟩
